import Mathlib

/-!
Verification development for the SEC Form 4 insider-activity pipeline
(`sec_tools.py`).

Shallow-embedding conventions used throughout this file:

* Python strings are Lean `String`s; every string operation the source uses
  (`splitlines`, `split("|")`, `startswith`, `strip`, `lower`, `zfill`,
  `replace`, substring tests) is re-implemented here over `List Char` so that
  all definitions evaluate inside the kernel.  Python string comparison is
  code-point lexicographic, modelled by `strLtB` below.
* Python floats are modelled as exact rationals (`ℚ`); a missing value
  (`None` / `NaN`) is `Option.none`.  `float(...)` parsing is modelled by
  `pyFloat?` for finite decimal literals (underscore separators and
  `inf` / `nan` spellings are not modelled).  `int(...)` is `pyInt?`.
* Calendar dates are modelled as integer day numbers (`ℤ`); `timedelta(days=1)`
  is `+ 1` and the ISO rendering of the appended `date` column is elided, the
  column simply carries the day number.
* Network and XML-decoding effects are oracles passed as function arguments:
  `fetchIdx : ℤ → Option (List IdxRow)` stands for fetching and parsing one
  day's master index (`none` = any raised exception), `dirIndex` for fetching
  and JSON-decoding a directory listing, `fetchXml` for fetching and
  `ET.fromstring`-parsing one document.  `pd.to_datetime` on the date column
  is likewise an oracle `dtParse`.
* Fallible Python code is `Except String`; an uncaught exception is
  `Except.error`.
* A pandas DataFrame is a list of typed rows together with (where a claim
  mentions them) an explicit column list.  `pd.DataFrame(rows, columns=...)`
  construction errors out unless the widest row has exactly as many fields as
  there are column names, and pads shorter rows with `NaN`; this is modelled
  in `fetch_daily_master_idx_parse`.
-/

set_option maxRecDepth 4000

/-! ### String and character constants from the source -/

def SEC_BASE : String := "https://www.sec.gov"
def emptyStr : String := ""
def nanStr : String := "nan"
def sForm4 : String := "4"
def sForm4A : String := "4/A"
def codeP : String := "P"
def codeS : String := "S"
def dashes5 : String := "-----"
def litEdgarData : String := "edgar/data/"
def litDotTxt : String := ".txt"
def litArchivesEdgarData : String := "/Archives/edgar/data/"
def litIndexJson : String := "/index.json"
def litForm4Xml : String := "form4.xml"
def litUnderscoreForm4Xml : String := "_form4.xml"
def litDotXml : String := ".xml"
def litForm4 : String := "form4"
def cIssuerSymbol : String := "issuerSymbol"
def cNTransactions : String := "nTransactions"
def cTotalShares : String := "totalShares"
def cBuys : String := "buys"
def cSells : String := "sells"
def errCannotParse : String := "Cannot parse filename: "
def errIntLiteral : String := "invalid literal for int()"
def errReSearchType : String := "TypeError: expected string or bytes-like object"
def errDataFrameWidth : String := "ValueError: 5 columns passed, passed data had a different width"

def pipeC : Char := '|'
def dashC : Char := '-'
def dotC : Char := '.'
def slashC : Char := '/'
def plusC : Char := '+'
def minusC : Char := '-'
def zeroC : Char := '0'
def eLowC : Char := 'e'
def eUpC : Char := 'E'

/-! ### Python string primitives, re-implemented over `List Char` -/

/-- Characters Python `str.strip()` removes (the ASCII whitespace subset;
exotic Unicode whitespace is not modelled). -/
def isSpaceChar (c : Char) : Bool :=
  c = ' ' || c = '\t' || c = '\n' || c = '\r' || c = '\x0B' || c = '\x0C'

/-- Line-break characters recognised by Python `str.splitlines`. -/
def isLineBreak (c : Char) : Bool :=
  c = '\n' || c = '\r' || c = '\x0B' || c = '\x0C' || c = '\x1C' || c = '\x1D' ||
    c = '\x1E' || c = '\x85' || c = '\u2028' || c = '\u2029'

/-- Worker for `pySplitlines`: `acc` is the current line, reversed. -/
def splitlinesAux : List Char → List Char → List String
  | [], acc => if acc.isEmpty then [] else [String.mk acc.reverse]
  | '\r' :: '\n' :: cs, acc => String.mk acc.reverse :: splitlinesAux cs []
  | c :: cs, acc =>
    if isLineBreak c then String.mk acc.reverse :: splitlinesAux cs []
    else splitlinesAux cs (c :: acc)

/-- Python `str.splitlines()`: split at line boundaries, no trailing empty line. -/
def pySplitlines (s : String) : List String := splitlinesAux s.data []

/-- Split a character list at every occurrence of `sep`, keeping empty pieces:
Python `str.split(sep)` for a one-character separator. -/
def splitCharAux (sep : Char) : List Char → List (List Char)
  | [] => [[]]
  | c :: cs =>
    if c = sep then [] :: splitCharAux sep cs
    else
      match splitCharAux sep cs with
      | [] => [[c]]
      | g :: gs => (c :: g) :: gs

/-- Python `str.split("|")`. -/
def pySplitPipe (s : String) : List String := (splitCharAux pipeC s.data).map String.mk

/-- Python `sub in s` (substring containment). -/
def containsCL (hay needle : List Char) : Bool :=
  match hay with
  | [] => needle.isEmpty
  | _ :: t => needle.isPrefixOf hay || containsCL t needle

/-- Python `str.startswith`. -/
def pyStartsWith (s p : String) : Bool := p.data.isPrefixOf s.data

/-- Python `str.endswith`. -/
def pyEndsWith (s p : String) : Bool := p.data.isSuffixOf s.data

/-- Python `str.strip()` with no arguments. -/
def pyStrip (s : String) : String :=
  String.mk (((s.data.dropWhile isSpaceChar).reverse.dropWhile isSpaceChar).reverse)

/-- ASCII lower-casing of one character (Python `str.lower` on the ASCII
file names this model meets). -/
def lowerChar (c : Char) : Char :=
  if 65 ≤ c.toNat ∧ c.toNat ≤ 90 then Char.ofNat (c.toNat + 32) else c

/-- Python `str.lower()`. -/
def pyLower (s : String) : String := String.mk (s.data.map lowerChar)

/-- Python `str.replace("-", "")`: drop every dash. -/
def removeDashes (s : String) : String := String.mk (s.data.filter (fun c => ¬ c = dashC))

/-- Python `str.zfill(w)`: left-pad with zeros to width `w`, keeping a
leading sign character in place. -/
def zfill (s : String) (w : ℕ) : String :=
  if w ≤ s.data.length then s
  else
    match s.data with
    | c :: rest =>
      if c = plusC ∨ c = minusC then
        String.mk (c :: (List.replicate (w - s.data.length) zeroC ++ rest))
      else String.mk (List.replicate (w - s.data.length) zeroC ++ s.data)
    | [] => String.mk (List.replicate w zeroC)

/-- Python `str(x)` applied to a cell that is either a string or missing:
`astype(str)` renders `NaN` as the string `nan`. -/
def pyStr (o : Option String) : String := o.getD nanStr

/-- Lexicographic code-point comparison of character lists: Python `<` on
strings. -/
def strLtCL : List Char → List Char → Bool
  | [], [] => false
  | [], _ :: _ => true
  | _ :: _, [] => false
  | a :: as, b :: bs =>
    if a.toNat < b.toNat then true
    else if b.toNat < a.toNat then false
    else strLtCL as bs

/-- Python `<=` on strings. -/
def strLeB (a b : String) : Bool := a = b || strLtCL a.data b.data

/-- The proposition form of `strLeB`, used as the sorting relation for
pandas group keys. -/
def strLeP (a b : String) : Prop := strLeB a b = true

instance : DecidableRel strLeP := fun a b => by
  unfold strLeP
  infer_instance

/-! ### Python numeric literal parsing -/

/-- Numeric value of a digit run. -/
def digitsVal (ds : List Char) : ℕ := ds.foldl (fun n c => 10 * n + (c.toNat - 48)) 0

/-- A non-empty all-digit run consuming the whole input, or `none`. -/
def parseDigitsEnd (cs : List Char) : Option ℕ :=
  if cs.isEmpty then none
  else if cs.all Char.isDigit then some (digitsVal cs) else none

/-- Exponent part of a float literal: optional sign then digits, consuming
the whole input. -/
def parseSignedDigits (cs : List Char) : Option ℤ :=
  match cs with
  | c :: rest =>
    if c = plusC then (parseDigitsEnd rest).map Int.ofNat
    else if c = minusC then (parseDigitsEnd rest).map (fun n => -(n : ℤ))
    else (parseDigitsEnd cs).map Int.ofNat
  | [] => none

/-- Scale a rational by `10 ^ e` for a signed exponent `e`. -/
def scalePow10 (e : ℤ) (q : ℚ) : ℚ :=
  if 0 ≤ e then q * (10 : ℚ) ^ e.toNat else q / (10 : ℚ) ^ (-e).toNat

/-- Fractional part after a leading dot, with the rest of the input. -/
def splitFrac : List Char → (List Char × List Char)
  | c :: rest => if c = dotC then rest.span Char.isDigit else ([], c :: rest)
  | [] => ([], [])

/-- Unsigned float literal: `digits [. digits] [e sign digits]`, at least one
mantissa digit, consuming the whole input. -/
def parseUnsignedFloat (cs : List Char) : Option ℚ :=
  let ipr := cs.span Char.isDigit
  let fpr := splitFrac ipr.2
  if ipr.1.isEmpty && fpr.1.isEmpty then none
  else
    let base : ℚ := (digitsVal ipr.1 : ℚ) + (digitsVal fpr.1 : ℚ) / (10 : ℚ) ^ fpr.1.length
    match fpr.2 with
    | [] => some base
    | c :: rest =>
      if c = eLowC || c = eUpC then (parseSignedDigits rest).map (fun e => scalePow10 e base)
      else none

/-- Python `float(s)` for finite decimal literals: strips surrounding
whitespace, optional sign, digits with optional fraction and exponent;
`none` when `float` would raise `ValueError`.  (Underscore digit separators
and `inf` / `nan` spellings are not modelled.) -/
def pyFloat? (s : String) : Option ℚ :=
  match (pyStrip s).data with
  | c :: rest =>
    if c = plusC then parseUnsignedFloat rest
    else if c = minusC then (parseUnsignedFloat rest).map Neg.neg
    else parseUnsignedFloat (c :: rest)
  | [] => none

/-- Python `int(s)`: strips surrounding whitespace, optional sign, digits;
`none` when `int` would raise `ValueError`. -/
def pyInt? (s : String) : Option ℤ :=
  match (pyStrip s).data with
  | c :: rest =>
    if c = plusC then (parseDigitsEnd rest).map Int.ofNat
    else if c = minusC then (parseDigitsEnd rest).map (fun n => -(n : ℤ))
    else (parseDigitsEnd (c :: rest)).map Int.ofNat
  | [] => none

/-- Whether an `Except` computation returned normally. -/
def isOkE {ε α : Type} : Except ε α → Bool
  | .ok _ => true
  | .error _ => false

/-! ### Daily master index parsing (`fetch_daily_master_idx`, lines 39-59) -/

/-- One parsed row of a daily master index DataFrame, with the five columns
CIK, Company Name, Form Type, Date Filed, Filename.  Cells are `Option`s
because `pd.DataFrame` pads short rows with `NaN`. -/
structure IdxRow where
  cik : Option String
  companyName : Option String
  formType : Option String
  dateFiled : Option String
  filename : Option String
deriving DecidableEq

/-- Position of the first data line: one past the last line that begins with
five dashes (the loop on lines 51-53 keeps overwriting `start`), `0` when no
such line exists. -/
def idxStart (lines : List String) : ℕ :=
  (lines.enum.foldl (fun st p => if pyStartsWith p.2 dashes5 then p.1 + 1 else st) 0)

/-- The pipe-delimited body lines of an index text. -/
def idxDataLines (text : String) : List String :=
  let lines := pySplitlines text
  (lines.drop (idxStart lines)).filter (fun ln => ln.data.contains pipeC)

/-- Build one `IdxRow` from the split fields of one line, padding missing
trailing cells with `NaN` as `pd.DataFrame` does. -/
def mkIdxRow (fields : List String) : IdxRow :=
  { cik := fields[0]?, companyName := fields[1]?, formType := fields[2]?,
    dateFiled := fields[3]?, filename := fields[4]? }

/-- The parsing part of `fetch_daily_master_idx`: applied to the decoded
index text (the HTTP fetch and latin-1 decode are elided).  Mirrors lines
46-59: locate the delimiter line, keep pipe-delimited lines, split on `|`,
and build the five-column DataFrame; `pd.DataFrame` raises unless the widest
row has exactly 5 fields. -/
def fetch_daily_master_idx_parse (text : String) : Except String (List IdxRow) :=
  let rows := (idxDataLines text).map pySplitPipe
  if rows.isEmpty then .ok []
  else
    if (rows.map List.length).foldl Nat.max 0 = 5 then .ok (rows.map mkIdxRow)
    else .error errDataFrameWidth

/-- Claim-side count for C3: the number of pipe-delimited lines (lines
containing a `|`) occurring after the header delimiter line (a line beginning
with `-----`; the source keeps the last such line when several occur). -/
def pipeLinesAfterDelim (text : String) : ℕ :=
  let lines := pySplitlines text
  (lines.drop (idxStart lines)).countP (fun ln => ln.data.contains pipeC)

/-! ### Date-range collector (`list_form4_filings_for_range`, lines 61-90) -/

/-- A row of the collected filings DataFrame: the five index columns plus the
appended `date` column, with the CIK column already a string (it is
`astype(str)`-rendered and later zero-filled). -/
structure RangeRow where
  cik : String
  companyName : Option String
  formType : Option String
  dateFiled : Option String
  filename : Option String
  date : ℤ
deriving DecidableEq

/-- The ascending list of days from `startD` to `endD` inclusive (the
`while cur.date() <= end_dt.date()` loop). -/
def ascDates (startD endD : ℤ) : List ℤ :=
  (List.range (endD - startD + 1).toNat).map (fun i => startD + (i : ℤ))

/-- The `Form Type.isin(["4", "4/A"])` mask; a padded `NaN` cell is not a
member. -/
def isForm4Row (r : IdxRow) : Bool := r.formType = some sForm4 || r.formType = some sForm4A

/-- Attach the collection day to a filtered index row (`df["date"] = ...`),
rendering the CIK cell as a string. -/
def rawRangeRow (d : ℤ) (r : IdxRow) : RangeRow :=
  { cik := pyStr r.cik, companyName := r.companyName, formType := r.formType,
    dateFiled := r.dateFiled, filename := r.filename, date := d }

/-- The post-concat CIK normalisation `out["CIK"].astype(str).str.zfill(10)`. -/
def normalizeCIK (r : RangeRow) : RangeRow := { r with cik := zfill r.cik 10 }

/-- `list_form4_filings_for_range`: for each day of the range fetch the daily
index (`fetchIdx`, `none` = `HTTPError` or any other exception, skipped
quietly), keep nonempty frames filtered to Form Type 4 / 4-slash-A with the
day attached, concatenate, and zero-fill the CIK column. -/
def list_form4_filings_for_range (fetchIdx : ℤ → Option (List IdxRow))
    (startD endD : ℤ) : List RangeRow :=
  let frames := (ascDates startD endD).filterMap (fun d =>
    match fetchIdx d with
    | none => none
    | some df =>
      if df.isEmpty then none
      else some ((df.filter isForm4Row).map (rawRangeRow d)))
  if frames.isEmpty then []
  else frames.flatten.map normalizeCIK

/-- Claim-side description for C7: day `d`'s index rows restricted to Form
Type `4` or `4/A`, each carrying a `date` column equal to `d` (rows are
carried over with the CIK zero-padded, as the collector normalises that
column after concatenation). -/
def spec_dayForm4 (fetchIdx : ℤ → Option (List IdxRow)) (d : ℤ) : List RangeRow :=
  match fetchIdx d with
  | none => []
  | some df =>
    (df.filter (fun r => r.formType = some sForm4 ∨ r.formType = some sForm4A)).map
      (fun r => normalizeCIK (rawRangeRow d r))

/-! ### Weekly baseline (`weekly_baseline`, lines 233-240) -/

/-- The sorted distinct values of the `date` column: the group keys of
`groupby("date")`. -/
def dateKeysSorted (rows : List RangeRow) : List ℤ :=
  List.insertionSort (fun a b => a ≤ b) ((rows.map RangeRow.date).dedup)

/-- `weekly_baseline`: `0.0` on an empty frame, otherwise the mean over the
distinct dates present of the per-date count of non-null `Filename` cells. -/
def weekly_baseline (rows : List RangeRow) : ℚ :=
  if rows.isEmpty then 0
  else
    let counts := (dateKeysSorted rows).map
      (fun d => ((rows.filter (fun r => r.date = d)).filter (fun r => r.filename.isSome)).length)
    if counts.isEmpty then 0 else (counts.sum : ℚ) / (counts.length : ℚ)

/-! ### Accession extraction (`_extract_accession_and_dirpath`, lines 95-111) -/

/-- Try the primary pattern `edgar/data/(\d+)/(\d{10}-\d{2}-\d{6})\.txt`
anchored at the start of `cs`; returns the two capture groups. -/
def matchPat1At (cs : List Char) : Option (String × String) :=
  match litEdgarData.data.isPrefixOf cs with
  | false => none
  | true =>
    let afterLit := cs.drop litEdgarData.data.length
    let cikSplit := afterLit.span Char.isDigit
    if cikSplit.1.isEmpty then none
    else
      match cikSplit.2 with
      | c :: rest =>
        if ¬ c = slashC then none
        else
          let d10 := rest.take 10
          let r10 := rest.drop 10
          if ¬ (d10.length = 10 ∧ d10.all Char.isDigit) then none
          else
            match r10 with
            | h1 :: r11 =>
              if ¬ h1 = dashC then none
              else
                let d2 := r11.take 2
                let r2 := r11.drop 2
                if ¬ (d2.length = 2 ∧ d2.all Char.isDigit) then none
                else
                  match r2 with
                  | h2 :: r21 =>
                    if ¬ h2 = dashC then none
                    else
                      let d6 := r21.take 6
                      let r6 := r21.drop 6
                      if ¬ (d6.length = 6 ∧ d6.all Char.isDigit) then none
                      else if litDotTxt.data.isPrefixOf r6 then
                        some (String.mk cikSplit.1,
                          String.mk (d10 ++ dashC :: d2 ++ dashC :: d6))
                      else none
                  | [] => none
            | [] => none
      | [] => none

/-- Leftmost match of the primary pattern: `re.search` scans start positions
left to right. -/
def searchPat1 : List Char → Option (String × String)
  | [] => none
  | c :: rest =>
    match matchPat1At (c :: rest) with
    | some r => some r
    | none => searchPat1 rest

/-- Try the fallback pattern `edgar/data/(\d+)/([0-9-]+)\.txt` anchored at
the start of `cs`. -/
def matchPat2At (cs : List Char) : Option (String × String) :=
  match litEdgarData.data.isPrefixOf cs with
  | false => none
  | true =>
    let afterLit := cs.drop litEdgarData.data.length
    let cikSplit := afterLit.span Char.isDigit
    if cikSplit.1.isEmpty then none
    else
      match cikSplit.2 with
      | c :: rest =>
        if ¬ c = slashC then none
        else
          let accSplit := rest.span (fun ch => ch.isDigit || ch = dashC)
          if accSplit.1.isEmpty then none
          else if litDotTxt.data.isPrefixOf accSplit.2 then
            some (String.mk cikSplit.1, String.mk accSplit.1)
          else none
      | [] => none

/-- Leftmost match of the fallback pattern. -/
def searchPat2 : List Char → Option (String × String)
  | [] => none
  | c :: rest =>
    match matchPat2At (c :: rest) with
    | some r => some r
    | none => searchPat2 rest

/-- `_extract_accession_and_dirpath`: primary regex first, then the
fallback; raises `ValueError` (modelled as `Except.error`) when neither
matches.  Returns the dash-free accession number and the directory URL. -/
def _extract_accession_and_dirpath (filename : String) : Except String (String × String) :=
  match searchPat1 filename.data with
  | some cg =>
    let accession := removeDashes cg.2
    .ok (accession, SEC_BASE ++ litArchivesEdgarData ++ cg.1 ++ String.mk [slashC] ++ accession)
  | none =>
    match searchPat2 filename.data with
    | some cg =>
      let accession := removeDashes cg.2
      .ok (accession, SEC_BASE ++ litArchivesEdgarData ++ cg.1 ++ String.mk [slashC] ++ accession)
    | none => .error (errCannotParse ++ filename)

/-- `_dir_index_json_url`: builds the `index.json` URL; `int(cik)` raises on
a non-numeric CIK string (modelled as `Except.error`), and renders without
leading zeros. -/
def _dir_index_json_url (cik accession : String) : Except String String :=
  match pyInt? cik with
  | none => .error errIntLiteral
  | some n =>
    .ok (SEC_BASE ++ litArchivesEdgarData ++ toString n ++ String.mk [slashC] ++ accession
      ++ litIndexJson)

/-- The file-name test of `find_form4_xml_url` (line 126), applied to the
lower-cased item name. -/
def matchesForm4Name (nameLower : String) : Bool :=
  nameLower = litForm4Xml || pyEndsWith nameLower litUnderscoreForm4Xml ||
    (pyEndsWith nameLower litDotXml && containsCL nameLower.data litForm4.data)

/-- `find_form4_xml_url`: extract the accession (a `ValueError` from the
extraction or from `int(cik)` propagates), fetch and JSON-decode the
directory listing (`dirIndex`; any exception there yields `None`), and
return the first item whose name looks like a Form 4 XML. -/
def find_form4_xml_url (dirIndex : String → Option (List String))
    (cik filename : String) : Except String (Option String) :=
  match _extract_accession_and_dirpath filename with
  | .error e => .error e
  | .ok ad =>
    match _dir_index_json_url cik ad.1 with
    | .error e => .error e
    | .ok idxUrl =>
      match dirIndex idxUrl with
      | none => .ok none
      | some items =>
        .ok (items.findSome? (fun nm =>
          if matchesForm4Name (pyLower nm) then some (ad.2 ++ String.mk [slashC] ++ nm)
          else none))

/-! ### Form 4 XML parsing (`parse_form4_xml`, lines 130-172) -/

/-- An `ElementTree` element: tag, text (the text before the first child,
`none` when absent) and child elements.  Namespaced documents would carry
the namespace inside the tag string, exactly as `ElementTree` stores it; the
source's `ns` dictionary is never consulted because its paths carry no
prefix, so it does not appear in the model either. -/
inductive XML where
  | el (tag : String) (text : Option String) (children : List XML)

def XML.tag : XML → String
  | .el t _ _ => t

def XML.textOf : XML → Option String
  | .el _ tx _ => tx

def XML.children : XML → List XML
  | .el _ _ cs => cs

mutual

/-- All proper descendants of an element in document (pre-)order. -/
def XML.descendants : XML → List XML
  | .el _ _ cs => XML.descList cs

/-- All elements of a forest together with their descendants, in document
order. -/
def XML.descList : List XML → List XML
  | [] => []
  | c :: cs => c :: (XML.descendants c ++ XML.descList cs)

end

/-- The children of `x` carrying tag `t` (one step of an ElementTree path). -/
def childTagged (x : XML) (t : String) : List XML :=
  x.children.filter (fun e => e.tag = t)

/-- `findtext(".//t")`: text of the first descendant tagged `t`; a found
element with no text yields the empty string; `none` when nothing matches. -/
def findtextDesc (x : XML) (t : String) : Option String :=
  ((x.descendants.filter (fun e => e.tag = t)).head?).map (fun e => e.textOf.getD emptyStr)

/-- `findtext("./a/b")`. -/
def findtextPath2 (x : XML) (a b : String) : Option String :=
  (((childTagged x a).flatMap (fun e => childTagged e b)).head?).map
    (fun e => e.textOf.getD emptyStr)

/-- `findtext("./a/b/c")`. -/
def findtextPath3 (x : XML) (a b c : String) : Option String :=
  (((childTagged x a).flatMap (fun e =>
      (childTagged e b).flatMap (fun e2 => childTagged e2 c))).head?).map
    (fun e => e.textOf.getD emptyStr)

def tagIssuerTradingSymbol : String := "issuerTradingSymbol"
def tagIssuerName : String := "issuerName"
def tagNonDerivTable : String := "nonDerivativeTable"
def tagNonDerivTx : String := "nonDerivativeTransaction"
def tagTransactionCoding : String := "transactionCoding"
def tagTransactionCode : String := "transactionCode"
def tagTransactionAmounts : String := "transactionAmounts"
def tagTransactionShares : String := "transactionShares"
def tagTransactionPrice : String := "transactionPricePerShare"
def tagTransactionDate : String := "transactionDate"
def tagOwnershipNature : String := "ownershipNature"
def tagDirectOrIndirect : String := "directOrIndirectOwnership"
def tagValue : String := "value"

/-- One extracted insider-transaction record (a row of the transactions
DataFrame built by `build_activity_summary`). -/
structure Tx where
  issuerSymbol : String
  issuerName : String
  transactionCode : String
  shares : Option ℚ
  price : Option ℚ
  date : Option String
  ownership : Option String
deriving DecidableEq

/-- The dictionary `parse_form4_xml` returns. -/
structure Form4Parsed where
  issuerSymbol : String
  issuerName : String
  transactions : List Tx
deriving DecidableEq

/-- `parse_form4_xml`: issuer symbol and name from the first matching
descendants, then one record per `nonDerivativeTable/nonDerivativeTransaction`
element; share and price texts go through `float(...)` with a bare `except`
mapping failures to `None`. -/
def parse_form4_xml (root : XML) : Form4Parsed :=
  let issuer_sym := pyStrip ((findtextDesc root tagIssuerTradingSymbol).getD emptyStr)
  let issuer_name := pyStrip ((findtextDesc root tagIssuerName).getD emptyStr)
  let txElems := (root.descendants.filter (fun e => e.tag = tagNonDerivTable)).flatMap
    (fun tb => childTagged tb tagNonDerivTx)
  { issuerSymbol := issuer_sym
    issuerName := issuer_name
    transactions := txElems.map (fun tx =>
      { issuerSymbol := issuer_sym
        issuerName := issuer_name
        transactionCode := pyStrip ((findtextPath2 tx tagTransactionCoding
          tagTransactionCode).getD emptyStr)
        shares :=
          (findtextPath3 tx tagTransactionAmounts tagTransactionShares tagValue).bind pyFloat?
        price :=
          (findtextPath3 tx tagTransactionAmounts tagTransactionPrice tagValue).bind pyFloat?
        date := findtextPath2 tx tagTransactionDate tagValue
        ownership := findtextPath3 tx tagOwnershipNature tagDirectOrIndirect tagValue }) }

/-- Claim-side element set for C8: the `nonDerivativeTransaction` elements of
a well-formed Form 4 document, i.e. the children so tagged of each
`nonDerivativeTable` section, in document order. -/
def form4TxElems (root : XML) : List XML :=
  (root.descendants.filter (fun e => e.tag = tagNonDerivTable)).flatMap
    (fun tb => childTagged tb tagNonDerivTx)

/-- Claim-side issuer trading symbol of the document. -/
def documentIssuerSymbol (root : XML) : String :=
  pyStrip ((findtextDesc root tagIssuerTradingSymbol).getD emptyStr)

/-- Claim-side issuer name of the document. -/
def documentIssuerName (root : XML) : String :=
  pyStrip ((findtextDesc root tagIssuerName).getD emptyStr)

/-- Claim-side record for C8: the record described by the claim for one
transaction element — the document's issuer symbol and name together with
that element's code, share count, price, date and ownership type, numeric
texts becoming floats exactly when they parse as numbers and `None`
otherwise. -/
def spec_txRecordOf (root tx : XML) : Tx :=
  { issuerSymbol := documentIssuerSymbol root
    issuerName := documentIssuerName root
    transactionCode := pyStrip ((findtextPath2 tx tagTransactionCoding
      tagTransactionCode).getD emptyStr)
    shares := (findtextPath3 tx tagTransactionAmounts tagTransactionShares tagValue).bind pyFloat?
    price := (findtextPath3 tx tagTransactionAmounts tagTransactionPrice tagValue).bind pyFloat?
    date := findtextPath2 tx tagTransactionDate tagValue
    ownership := findtextPath3 tx tagOwnershipNature tagDirectOrIndirect tagValue }

/-! ### Transactions table construction (`build_activity_summary`, lines 191-220) -/

/-- The per-row cleanup of the final transactions DataFrame:
`pd.to_numeric(..., errors="coerce")` on the `shares` and `price` columns is
the identity on cells that are already numeric-or-missing, and
`pd.to_datetime(..., errors="coerce")` on the `date` column is the oracle
`dtParse`. -/
def cleanupRow (dtParse : Option String → Option String) (t : Tx) : Tx :=
  { t with shares := t.shares, price := t.price, date := dtParse t.date }

/-- The row loop of `build_activity_summary`: stop once `count` reaches
`max_filings`; a row whose `Filename` cell is missing makes `re.search`
raise a `TypeError`, and an unparseable `Filename` or non-numeric CIK makes
`find_form4_xml_url` raise a `ValueError`, both propagating; a missing XML
URL or a failure while fetching or parsing the document skips the row
without counting it. -/
def build_activity_summary_go (dirIndex : String → Option (List String))
    (fetchXml : String → Option XML) :
    List RangeRow → ℕ → ℕ → Except String (List Tx)
  | [], _, _ => .ok []
  | r :: rest, maxF, count =>
    if maxF ≤ count then .ok []
    else
      match r.filename with
      | none => .error errReSearchType
      | some fn =>
        match find_form4_xml_url dirIndex (zfill r.cik 10) fn with
        | .error e => .error e
        | .ok none => build_activity_summary_go dirIndex fetchXml rest maxF count
        | .ok (some url) =>
          match fetchXml url with
          | none => build_activity_summary_go dirIndex fetchXml rest maxF count
          | some x =>
            match build_activity_summary_go dirIndex fetchXml rest maxF (count + 1) with
            | .error e => .error e
            | .ok more => .ok ((parse_form4_xml x).transactions ++ more)

/-- `build_activity_summary`: run the row loop from `count = 0`, then apply
the column cleanup to the collected rows. -/
def build_activity_summary (dirIndex : String → Option (List String))
    (fetchXml : String → Option XML) (dtParse : Option String → Option String)
    (filings : List RangeRow) (max_filings : ℕ) : Except String (List Tx) :=
  match build_activity_summary_go dirIndex fetchXml filings max_filings 0 with
  | .error e => .error e
  | .ok rows => .ok (rows.map (cleanupRow dtParse))

/-! ### Issuer aggregation (`aggregate_by_issuer`, lines 222-231) -/

/-- A row of the aggregate DataFrame after `reset_index`. -/
structure AggRow where
  issuerSymbol : String
  nTransactions : ℕ
  totalShares : ℚ
  buys : ℚ
  sells : ℚ
deriving DecidableEq

/-- The aggregate DataFrame: explicit column list plus rows. -/
structure AggDF where
  cols : List String
  rows : List AggRow
deriving DecidableEq

/-- The aggregate's columns, identical in the empty branch (line 224) and
after `reset_index` (line 230). -/
def aggCols : List String := [cIssuerSymbol, cNTransactions, cTotalShares, cBuys, cSells]

/-- The records of a transactions table carrying a given issuer symbol (one
`groupby("issuerSymbol")` group). -/
def groupRows (txs : List Tx) (s : String) : List Tx :=
  txs.filter (fun t => t.issuerSymbol = s)

/-- The non-null share values of a list of records (`NaN` cells are skipped
by pandas reductions). -/
def sharesOf (g : List Tx) : List ℚ := g.filterMap Tx.shares

/-- `Series.sum(min_count=1)`: `NaN` (here `none`) when no non-null value
exists, otherwise the sum of the non-null values. -/
def sumMin1 (vals : List ℚ) : Option ℚ := if vals.isEmpty then none else some vals.sum

/-- The aggregate row `aggregate_by_issuer` builds for one issuer symbol:
`count()` counts non-null shares; the three `sum(min_count=1)` series
produce `NaN` for a symbol absent from the filtered frame or with no
non-null shares, which the final `fillna(0)` turns into `0`. -/
def aggRow (txs : List Tx) (s : String) : AggRow :=
  { issuerSymbol := s
    nTransactions := (sharesOf (groupRows txs s)).length
    totalShares := (sumMin1 (sharesOf (groupRows txs s))).getD 0
    buys := (sumMin1 (sharesOf ((groupRows txs s).filter
      (fun t => t.transactionCode = codeP)))).getD 0
    sells := (sumMin1 (sharesOf ((groupRows txs s).filter
      (fun t => t.transactionCode = codeS)))).getD 0 }

/-- The sorted distinct issuer symbols: the group keys of
`groupby("issuerSymbol")`, which pandas sorts ascending. -/
def groupKeysSorted (txs : List Tx) : List String :=
  List.insertionSort strLeP ((txs.map Tx.issuerSymbol).dedup)

/-- The `sort_values(["nTransactions", "totalShares"], ascending=False)`
order: more transactions first, ties by larger total shares, further ties
keeping the pre-sort (ascending-symbol) order via a stable sort. -/
def aggOrder (a b : AggRow) : Prop :=
  b.nTransactions < a.nTransactions ∨
    (a.nTransactions = b.nTransactions ∧ b.totalShares ≤ a.totalShares)

instance : DecidableRel aggOrder := fun a b => by
  unfold aggOrder
  infer_instance

/-- `aggregate_by_issuer`: the empty input short-circuits to an empty frame
with the five output columns; otherwise one row per distinct issuer symbol,
sorted descending by transaction count then total shares. -/
def aggregate_by_issuer (txs : List Tx) : AggDF :=
  if txs.isEmpty then { cols := aggCols, rows := [] }
  else { cols := aggCols,
         rows := List.insertionSort aggOrder ((groupKeysSorted txs).map (aggRow txs)) }

/-- State-passing model of `aggregate_by_issuer` for the frame-effect claim:
every pandas operation the function performs (boolean-mask selection,
`groupby` with `sum` / `count`, `concat`, `fillna`, `sort_values`,
`reset_index`) returns a fresh object and none is applied in place, so the
input table is threaded through unchanged alongside the result. -/
def aggregate_by_issuer_state (transactions : List Tx) : AggDF × List Tx :=
  (aggregate_by_issuer transactions, transactions)

/-! ### Claim-side per-symbol aggregate values (for C4) -/

/-- Number of records for `s` whose share count is present. -/
def spec_nTx (txs : List Tx) (s : String) : ℕ :=
  ((groupRows txs s).filter (fun t => t.shares.isSome)).length

/-- Sum of the present share counts of the records for `s`. -/
def spec_total (txs : List Tx) (s : String) : ℚ :=
  ((groupRows txs s).filterMap Tx.shares).sum

/-- Sum of the present share counts over code-`P` records for `s` (an absent
sum is the empty sum `0`). -/
def spec_buys (txs : List Tx) (s : String) : ℚ :=
  (((groupRows txs s).filter (fun t => t.transactionCode = codeP)).filterMap Tx.shares).sum

/-- Sum of the present share counts over code-`S` records for `s`. -/
def spec_sells (txs : List Tx) (s : String) : ℚ :=
  (((groupRows txs s).filter (fun t => t.transactionCode = codeS)).filterMap Tx.shares).sum

/-! ### Concrete sample data for witnesses and counterexamples -/

/-- Directory-listing oracle on which every fetch fails (is caught). -/
def noDirIndex : String → Option (List String) := fun _ => none

/-- Document-fetch oracle on which every fetch fails (is caught). -/
def noFetchXml : String → Option XML := fun _ => none

/-- A concrete `pd.to_datetime` oracle for witnesses. -/
def idDtParse : Option String → Option String := fun o => o

def strAppleInc : String := "Apple Inc"
def strMicrosoft : String := "Microsoft"
def strAAPL : String := "AAPL"
def strMSFT : String := "MSFT"
def strGarbage : String := "garbage"
def str10K : String := "10-K"
def strDate1 : String := "2025-01-02"
def strBeta : String := "Beta"
def strCik1 : String := "1"
def strCik2 : String := "2"
def strCikPad : String := "0000320193"
def goodFn : String := "edgar/data/320193/0000320193-25-000123.txt"
def strFn1 : String := "edgar/data/1/0000000001-25-000001.txt"
def strFn2 : String := "edgar/data/2/0000000002-25-000002.txt"

/-- A filings row whose `Filename` parses into an accession number. -/
def goodFiling : RangeRow :=
  { cik := strCikPad, companyName := some strAppleInc, formType := some sForm4,
    dateFiled := some strDate1, filename := some goodFn, date := 0 }

/-- A filings row whose `Filename` cannot be parsed into an accession number. -/
def badFiling : RangeRow :=
  { cik := strCikPad, companyName := none, formType := some sForm4,
    dateFiled := none, filename := some strGarbage, date := 0 }

/-- A purchase record. -/
def txBuy : Tx :=
  { issuerSymbol := strAAPL, issuerName := strAppleInc, transactionCode := codeP,
    shares := some 3, price := some 2, date := none, ownership := none }

/-- A sale record with a different issuer. -/
def txSell : Tx :=
  { issuerSymbol := strMSFT, issuerName := strMicrosoft, transactionCode := codeS,
    shares := some 5, price := some 1, date := none, ownership := none }

/-- A record whose share count is missing. -/
def txNullShares : Tx :=
  { issuerSymbol := strAAPL, issuerName := strAppleInc, transactionCode := codeP,
    shares := none, price := none, date := none, ownership := none }

/-- A small decoded index text: a title line, a pipe-bearing header line
before the delimiter, the delimiter, two data lines and one pipe-free line. -/
def sampleIdxText : String :=
  "Daily Index\nCIK|Company Name|Form Type|Date Filed|Filename\n--------\n1|Apple Inc|4|2025-01-02|edgar/data/1/0000000001-25-000001.txt\nno pipes here\n2|Beta|10-K|2025-01-02|edgar/data/2/0000000002-25-000002.txt"

/-- The two rows `sampleIdxText` parses to. -/
def sampleIdxRows : List IdxRow :=
  [{ cik := some strCik1, companyName := some strAppleInc, formType := some sForm4,
     dateFiled := some strDate1, filename := some strFn1 },
   { cik := some strCik2, companyName := some strBeta, formType := some str10K,
     dateFiled := some strDate1, filename := some strFn2 }]

/-- A filings row at a given day, for the baseline witnesses. -/
def wbRow (d : ℤ) : RangeRow :=
  { cik := strCikPad, companyName := none, formType := some sForm4,
    dateFiled := none, filename := some goodFn, date := d }

/-- An index-fetch oracle that has rows for day 0 and fails for every other
day. -/
def wFetchIdx : ℤ → Option (List IdxRow) := fun d =>
  if d = 0 then
    some [{ cik := some strCik1, companyName := some strAppleInc, formType := some sForm4,
            dateFiled := some strDate1, filename := some strFn1 },
          { cik := some strCik2, companyName := some strBeta, formType := some str10K,
            dateFiled := some strDate1, filename := some strFn2 }]
  else none

/-! ### Order-theoretic facts about the string comparison -/

theorem charEq_of_toNat_eq {a b : Char} (h : a.toNat = b.toNat) : a = b :=
  Char.ext (UInt32.ext h)

theorem strLtCL_asymm : ∀ as bs : List Char, strLtCL as bs = true → strLtCL bs as = false := by
  intro as
  induction as with
  | nil => intro bs h; cases bs <;> simp_all [strLtCL]
  | cons a as ih =>
    intro bs h
    cases bs with
    | nil => simp_all [strLtCL]
    | cons b bs =>
      by_cases h1 : a.toNat < b.toNat
      · have h2 : ¬ b.toNat < a.toNat := by omega
        simp [strLtCL, h1, h2]
      · by_cases h2 : b.toNat < a.toNat
        · simp [strLtCL, h1, h2] at h
        · have h3 := ih bs (by simp_all [strLtCL])
          simp [strLtCL, h1, h2, h3]

theorem strLtCL_trans : ∀ as bs cs : List Char,
    strLtCL as bs = true → strLtCL bs cs = true → strLtCL as cs = true := by
  intro as
  induction as with
  | nil =>
    intro bs cs h1 h2
    cases bs <;> cases cs <;> simp_all [strLtCL]
  | cons a as ih =>
    intro bs cs h1 h2
    cases bs with
    | nil => simp_all [strLtCL]
    | cons b bs =>
      cases cs with
      | nil => simp_all [strLtCL]
      | cons c cs =>
        by_cases hab : a.toNat < b.toNat <;> by_cases hbc : b.toNat < c.toNat
        · have hac : a.toNat < c.toNat := by omega
          simp [strLtCL, hac]
        · by_cases hcb : c.toNat < b.toNat
          · simp [strLtCL, hbc, hcb] at h2
          · have hac : a.toNat < c.toNat := by omega
            simp [strLtCL, hac]
        · by_cases hba : b.toNat < a.toNat
          · simp [strLtCL, hab, hba] at h1
          · have hac : a.toNat < c.toNat := by omega
            simp [strLtCL, hac]
        · by_cases hba : b.toNat < a.toNat
          · simp [strLtCL, hab, hba] at h1
          · by_cases hcb : c.toNat < b.toNat
            · simp [strLtCL, hbc, hcb] at h2
            · have h1a : strLtCL as bs = true := by simp_all [strLtCL]
              have h2a : strLtCL bs cs = true := by simp_all [strLtCL]
              have hac1 : ¬ a.toNat < c.toNat := by omega
              have hac2 : ¬ c.toNat < a.toNat := by omega
              simp [strLtCL, hac1, hac2, ih bs cs h1a h2a]

theorem strLtCL_total : ∀ as bs : List Char,
    strLtCL as bs = true ∨ strLtCL bs as = true ∨ as = bs := by
  intro as
  induction as with
  | nil => intro bs; cases bs <;> simp [strLtCL]
  | cons a as ih =>
    intro bs
    cases bs with
    | nil => simp [strLtCL]
    | cons b bs =>
      by_cases hab : a.toNat < b.toNat
      · left; simp [strLtCL, hab]
      · by_cases hba : b.toNat < a.toNat
        · right; left; simp [strLtCL, hba]
        · have hEq : a = b := charEq_of_toNat_eq (by omega)
          subst hEq
          rcases ih bs with h | h | h
          · left; simp [strLtCL, hab, h]
          · right; left; simp [strLtCL, hab, h]
          · right; right; rw [h]

instance : IsTotal String strLeP where
  total a b := by
    rcases strLtCL_total a.data b.data with h | h | h
    · left; unfold strLeP strLeB; simp [h]
    · right; unfold strLeP strLeB; simp [h]
    · left
      have hab : a = b := String.ext h
      subst hab
      unfold strLeP strLeB
      simp

instance : IsTrans String strLeP where
  trans a b c hab hbc := by
    unfold strLeP strLeB at hab hbc ⊢
    rcases (Bool.or_eq_true _ _).mp hab with h1 | h1
    · have hq : a = b := of_decide_eq_true h1
      subst hq
      exact hbc
    · rcases (Bool.or_eq_true _ _).mp hbc with h2 | h2
      · have hq : b = c := of_decide_eq_true h2
        subst hq
        simp [h1]
      · simp [strLtCL_trans _ _ _ h1 h2]

instance : IsAntisymm String strLeP where
  antisymm a b hab hba := by
    unfold strLeP strLeB at hab hba
    rcases (Bool.or_eq_true _ _).mp hab with h1 | h1
    · exact of_decide_eq_true h1
    · rcases (Bool.or_eq_true _ _).mp hba with h2 | h2
      · exact (of_decide_eq_true h2).symm
      · have hcontra := strLtCL_asymm _ _ h1
        rw [h2] at hcontra
        simp at hcontra

/-! ### Permutation invariance of the aggregation -/

theorem sumMin1_perm {v w : List ℚ} (h : v.Perm w) : sumMin1 v = sumMin1 w := by
  unfold sumMin1
  have hl := h.length_eq
  have hs := h.sum_eq
  cases v <;> cases w <;> simp_all

theorem aggRow_perm {l m : List Tx} (h : l.Perm m) (s : String) : aggRow l s = aggRow m s := by
  have hg : (groupRows l s).Perm (groupRows m s) := h.filter _
  have hsh : (sharesOf (groupRows l s)).Perm (sharesOf (groupRows m s)) := hg.filterMap _
  have hshP : (sharesOf ((groupRows l s).filter (fun t => t.transactionCode = codeP))).Perm
      (sharesOf ((groupRows m s).filter (fun t => t.transactionCode = codeP))) :=
    (hg.filter _).filterMap _
  have hshS : (sharesOf ((groupRows l s).filter (fun t => t.transactionCode = codeS))).Perm
      (sharesOf ((groupRows m s).filter (fun t => t.transactionCode = codeS))) :=
    (hg.filter _).filterMap _
  unfold aggRow
  rw [hsh.length_eq, sumMin1_perm hsh, sumMin1_perm hshP, sumMin1_perm hshS]

theorem groupKeysSorted_perm {l m : List Tx} (h : l.Perm m) :
    groupKeysSorted l = groupKeysSorted m := by
  unfold groupKeysSorted
  have hd : ((l.map Tx.issuerSymbol).dedup).Perm ((m.map Tx.issuerSymbol).dedup) :=
    (h.map _).dedup
  exact List.eq_of_perm_of_sorted
    (((List.perm_insertionSort _ _).trans hd).trans (List.perm_insertionSort _ _).symm)
    (List.sorted_insertionSort _ _) (List.sorted_insertionSort _ _)

/-- C2: aggregation is invariant to input row order — for every transactions
table and every permutation of its rows, `aggregate_by_issuer` returns the
same DataFrame (same aggregate rows, same values, same output order).
Share values are modelled as exact rationals, so group sums are
order-independent. -/
theorem c2_aggregate_order_invariant (l m : List Tx) (h : l.Perm m) :
    aggregate_by_issuer l = aggregate_by_issuer m := by
  have hemp : l.isEmpty = m.isEmpty := by
    have hlen := h.length_eq
    cases l <;> cases m <;> simp_all
  have hfun : aggRow l = aggRow m := funext (aggRow_perm h)
  unfold aggregate_by_issuer
  rw [hemp, groupKeysSorted_perm h, hfun]

/-- Witness for C2 at a concrete two-row table and its swap. -/
theorem c2_aggregate_order_invariant_witness :
    aggregate_by_issuer [txBuy, txSell] = aggregate_by_issuer [txSell, txBuy] :=
  c2_aggregate_order_invariant [txBuy, txSell] [txSell, txBuy]
    (List.Perm.swap txSell txBuy [])

/-- C5: an empty input yields an empty, well-typed result — the aggregate of
an empty transactions table is an empty DataFrame with exactly the columns
issuerSymbol, nTransactions, totalShares, buys, sells, and the weekly
baseline of an empty table is the number `0.0`. -/
theorem c5_empty_inputs :
    aggregate_by_issuer [] =
      { cols := [cIssuerSymbol, cNTransactions, cTotalShares, cBuys, cSells], rows := [] } ∧
    weekly_baseline [] = 0 :=
  ⟨rfl, rfl⟩

/-- C9: transaction records are immutable under aggregation —
`aggregate_by_issuer` leaves its input table unchanged.  In the
state-passing model of the call, the table threaded through the pandas
operations (none of which is in-place) comes back exactly as it went in,
and the produced aggregate is the usual one. -/
theorem c9_aggregate_preserves_input (transactions : List Tx) :
    (aggregate_by_issuer_state transactions).2 = transactions ∧
    (aggregate_by_issuer_state transactions).1 = aggregate_by_issuer transactions :=
  ⟨rfl, rfl⟩

/-- C8: `parse_form4_xml` returns exactly one transaction record per
`nonDerivativeTransaction` element (sitting, as in a well-formed Form 4
document, under a `nonDerivativeTable` section), each record carrying the
document's issuer trading symbol and issuer name together with that
element's transaction code, share count, price, date and ownership type;
share count and price are numbers exactly when the corresponding text
parses as a number and `None` otherwise. -/
theorem c8_parse_form4_records (root : XML) :
    (parse_form4_xml root).transactions = (form4TxElems root).map (spec_txRecordOf root) ∧
    (parse_form4_xml root).transactions.length = (form4TxElems root).length := by
  have h1 : (parse_form4_xml root).transactions =
      (form4TxElems root).map (spec_txRecordOf root) := rfl
  exact ⟨h1, by rw [h1]; exact List.length_map _ _⟩

/-- C3: whenever `fetch_daily_master_idx`'s parse of a decoded index text
produces a DataFrame, that DataFrame has exactly as many rows as there are
pipe-delimited lines occurring after the header delimiter line. -/
theorem c3_idx_row_count (text : String) (df : List IdxRow)
    (h : fetch_daily_master_idx_parse text = .ok df) :
    df.length = pipeLinesAfterDelim text := by
  unfold pipeLinesAfterDelim
  rw [List.countP_eq_length_filter]
  have hgoal : df.length = (idxDataLines text).length := by
    simp only [fetch_daily_master_idx_parse] at h
    split_ifs at h with hempty hwidth
    · simp only [Except.ok.injEq] at h
      subst h
      have hnil : (idxDataLines text).map pySplitPipe = [] := List.isEmpty_iff.mp hempty
      have : idxDataLines text = [] := List.map_eq_nil_iff.mp hnil
      simp [this]
    · simp only [Except.ok.injEq] at h
      subst h
      rw [List.length_map, List.length_map]
  exact hgoal

/-- Witness for C3 at the sample index text: the parse succeeds with two
rows, matching the two pipe-delimited lines after the delimiter. -/
theorem c3_idx_row_count_witness :
    sampleIdxRows.length = pipeLinesAfterDelim sampleIdxText :=
  c3_idx_row_count sampleIdxText sampleIdxRows rfl

/-- C1 counterexample: on a filings row whose `Filename` cannot be parsed
into an accession number, `build_activity_summary` does not return normally
— the `ValueError` raised by `_extract_accession_and_dirpath` propagates
to the caller. -/
theorem c1_counterexample :
    isOkE (build_activity_summary noDirIndex noFetchXml idDtParse [badFiling] 300) = false :=
  rfl

/-! ### Per-symbol lookup facts for the aggregate -/

theorem length_filterMap_shares : ∀ l : List Tx,
    (l.filterMap Tx.shares).length = (l.filter (fun t => t.shares.isSome)).length := by
  intro l
  induction l with
  | nil => rfl
  | cons t l ih =>
    cases h : t.shares <;> simp [List.filterMap_cons, List.filter_cons, h, ih]

theorem sumMin1_getD : ∀ v : List ℚ, (sumMin1 v).getD 0 = v.sum := by
  intro v
  cases v with
  | nil => rfl
  | cons a v => rfl

theorem filter_eq_singleton_of_nodup {κ : Type} [DecidableEq κ] (s : κ) :
    ∀ ks : List κ, ks.Nodup → s ∈ ks → ks.filter (fun k => k = s) = [s] := by
  intro ks
  induction ks with
  | nil => intro _ hs; cases hs
  | cons k ks ih =>
    intro hnd hs
    rcases List.mem_cons.mp hs with h1 | h2
    · subst h1
      have hnotin : s ∉ ks := (List.nodup_cons.mp hnd).1
      have hnil : ks.filter (fun x => x = s) = [] := by
        apply List.filter_eq_nil_iff.mpr
        intro a ha
        simp only [decide_eq_true_eq]
        intro hak
        subst hak
        exact hnotin ha
      simp [List.filter_cons, hnil]
    · have hk : ¬ k = s := by
        intro hks
        subst hks
        exact (List.nodup_cons.mp hnd).1 h2
      rw [List.filter_cons, if_neg (by simpa using hk)]
      exact ih (List.nodup_cons.mp hnd).2 h2

/-- C4 (amended): for every transactions table and every issuer symbol
occurring in it, the aggregate contains exactly one row for that symbol;
its `nTransactions` is the number of records for the symbol whose share
count is present (pandas `count()` skips nulls), `totalShares` is the sum
of the present share counts, `buys` / `sells` are the sums of the present
share counts over code-P / code-S records, with absent sums reported as 0. -/
theorem c4_per_symbol_aggregate (txs : List Tx) (s : String)
    (h : s ∈ txs.map Tx.issuerSymbol) :
    ((aggregate_by_issuer txs).rows.filter (fun r => r.issuerSymbol = s)) =
      [{ issuerSymbol := s, nTransactions := spec_nTx txs s, totalShares := spec_total txs s,
         buys := spec_buys txs s, sells := spec_sells txs s }] := by
  have hne : txs.isEmpty = false := by
    cases txs with
    | nil => simp at h
    | cons t ts => rfl
  have hmem : s ∈ groupKeysSorted txs :=
    (List.perm_insertionSort strLeP _).mem_iff.mpr (List.mem_dedup.mpr h)
  have hnd : (groupKeysSorted txs).Nodup :=
    (List.perm_insertionSort strLeP _).nodup_iff.mpr (List.nodup_dedup _)
  have hrows : (aggregate_by_issuer txs).rows =
      List.insertionSort aggOrder ((groupKeysSorted txs).map (aggRow txs)) := by
    simp [aggregate_by_issuer, hne]
  have hperm : ((aggregate_by_issuer txs).rows.filter (fun r => r.issuerSymbol = s)).Perm
      (((groupKeysSorted txs).map (aggRow txs)).filter (fun r => r.issuerSymbol = s)) := by
    rw [hrows]
    exact (List.perm_insertionSort _ _).filter _
  have hcongr : (groupKeysSorted txs).filter
        ((fun r : AggRow => r.issuerSymbol = s) ∘ (aggRow txs)) =
      (groupKeysSorted txs).filter (fun k => k = s) := by
    apply List.filter_congr
    intro k hk
    rfl
  have hfm : (((groupKeysSorted txs).map (aggRow txs)).filter (fun r => r.issuerSymbol = s)) =
      [aggRow txs s] := by
    rw [List.filter_map, hcongr, filter_eq_singleton_of_nodup s _ hnd hmem]
    rfl
  rw [hfm] at hperm
  have hfinal := List.perm_singleton.mp hperm
  rw [hfinal]
  have hrow : aggRow txs s =
      { issuerSymbol := s, nTransactions := spec_nTx txs s, totalShares := spec_total txs s,
        buys := spec_buys txs s, sells := spec_sells txs s } := by
    simp only [aggRow, spec_nTx, spec_total, spec_buys, spec_sells, sharesOf,
      sumMin1_getD, length_filterMap_shares]
  rw [hrow]

/-- C4 counterexample: on a table holding a single record with that symbol
but a missing share count, the produced row reports `nTransactions = 0`
although the number of records with that symbol is 1 — pandas `count()`
counts non-null shares, not records. -/
theorem c4_counterexample :
    (aggregate_by_issuer [txNullShares]).rows.map AggRow.nTransactions ≠
        [(groupRows [txNullShares] strAAPL).length] ∧
    (aggregate_by_issuer [txNullShares]).rows.map AggRow.issuerSymbol = [strAAPL] := by
  decide

/-- Witness for C4 at a concrete table containing the symbol AAPL. -/
theorem c4_per_symbol_aggregate_witness :
    ((aggregate_by_issuer [txBuy, txSell]).rows.filter (fun r => r.issuerSymbol = strAAPL)) =
      [{ issuerSymbol := strAAPL, nTransactions := spec_nTx [txBuy, txSell] strAAPL,
         totalShares := spec_total [txBuy, txSell] strAAPL,
         buys := spec_buys [txBuy, txSell] strAAPL,
         sells := spec_sells [txBuy, txSell] strAAPL }] :=
  c4_per_symbol_aggregate [txBuy, txSell] strAAPL (by decide)

/-! ### Counting rows by group key (for the baseline) -/

theorem map_ite_sum_zero {κ : Type} [DecidableEq κ] (x : κ) :
    ∀ ks : List κ, x ∉ ks → (ks.map (fun k => if x = k then (1 : ℕ) else 0)).sum = 0 := by
  intro ks
  induction ks with
  | nil => intro _; rfl
  | cons k ks ih =>
    intro hx
    have h1 : ¬ x = k := fun he => hx (he ▸ List.mem_cons_self k ks)
    simp [h1, ih (fun hm => hx (List.mem_cons_of_mem _ hm))]

theorem map_ite_sum_one {κ : Type} [DecidableEq κ] (x : κ) :
    ∀ ks : List κ, ks.Nodup → x ∈ ks →
      (ks.map (fun k => if x = k then (1 : ℕ) else 0)).sum = 1 := by
  intro ks
  induction ks with
  | nil => intro _ hx; cases hx
  | cons k ks ih =>
    intro hnd hx
    rcases List.mem_cons.mp hx with h1 | h2
    · subst h1
      have hnotin : x ∉ ks := (List.nodup_cons.mp hnd).1
      simp [map_ite_sum_zero x ks hnotin]
    · have h1 : ¬ x = k := by
        intro he
        subst he
        exact (List.nodup_cons.mp hnd).1 h2
      simp [h1, ih (List.nodup_cons.mp hnd).2 h2]

theorem sum_map_add_nat {κ : Type} (f g : κ → ℕ) :
    ∀ ks : List κ, (ks.map (fun k => f k + g k)).sum = (ks.map f).sum + (ks.map g).sum := by
  intro ks
  induction ks with
  | nil => rfl
  | cons k ks ih =>
    simp only [List.map_cons, List.sum_cons, ih]
    omega

theorem sum_group_lengths {α κ : Type} [DecidableEq κ] (key : α → κ) :
    ∀ (l : List α) (ks : List κ), ks.Nodup → (∀ a ∈ l, key a ∈ ks) →
      (ks.map (fun k => (l.filter (fun a => key a = k)).length)).sum = l.length := by
  intro l
  induction l with
  | nil =>
    intro ks _ _
    simp
  | cons a l ih =>
    intro ks hnd hmem
    have hterm : ∀ k, ((a :: l).filter (fun x => key x = k)).length =
        (if key a = k then 1 else 0) + (l.filter (fun x => key x = k)).length := by
      intro k
      by_cases hk : key a = k
      · simp [List.filter_cons, hk]
        omega
      · simp [List.filter_cons, hk]
    have hmap : ks.map (fun k => ((a :: l).filter (fun x => key x = k)).length) =
        ks.map (fun k =>
          (if key a = k then 1 else 0) + (l.filter (fun x => key x = k)).length) :=
      List.map_congr_left (fun k _ => hterm k)
    rw [hmap, sum_map_add_nat, map_ite_sum_one (key a) ks hnd (hmem a (List.mem_cons_self a l)),
      ih ks hnd (fun b hb => hmem b (List.mem_cons_of_mem a hb))]
    simp only [List.length_cons]
    omega

/-- C6 (amended): `weekly_baseline` returns `0.0` for an empty input and
otherwise the total number of filing rows divided by the number of DISTINCT
dates occurring in the input — not by the number of days in the seven-day
window.  Stated for tables whose `Filename` cells are all present, as the
collector produces them. -/
theorem c6_weekly_baseline_distinct_dates (rows : List RangeRow)
    (h : ∀ r ∈ rows, r.filename.isSome = true) :
    weekly_baseline rows =
      if rows.isEmpty then 0
      else (rows.length : ℚ) / (((rows.map RangeRow.date).dedup.length : ℕ) : ℚ) := by
  by_cases hemp : rows.isEmpty = true
  · rw [if_pos hemp]
    unfold weekly_baseline
    rw [if_pos hemp]
  · rw [if_neg hemp]
    have hne : rows ≠ [] := fun hn => hemp (by simp [hn])
    have hinner : ∀ d : ℤ, ((rows.filter (fun r => r.date = d)).filter
        (fun r => r.filename.isSome)).length = (rows.filter (fun r => r.date = d)).length := by
      intro d
      congr 1
      apply List.filter_eq_self.mpr
      intro a ha
      exact h a (List.mem_filter.mp ha).1
    have hmapeq : (dateKeysSorted rows).map
          (fun d => ((rows.filter (fun r => r.date = d)).filter
            (fun r => r.filename.isSome)).length) =
        (dateKeysSorted rows).map (fun d => (rows.filter (fun r => r.date = d)).length) :=
      List.map_congr_left (fun d _ => hinner d)
    have hkeys_nodup : (dateKeysSorted rows).Nodup :=
      (List.perm_insertionSort _ _).nodup_iff.mpr (List.nodup_dedup _)
    have hkeys_mem : ∀ r ∈ rows, r.date ∈ dateKeysSorted rows := fun r hr =>
      (List.perm_insertionSort _ _).mem_iff.mpr
        (List.mem_dedup.mpr (List.mem_map_of_mem RangeRow.date hr))
    have hsum : ((dateKeysSorted rows).map
        (fun d => (rows.filter (fun r => r.date = d)).length)).sum = rows.length :=
      sum_group_lengths RangeRow.date rows (dateKeysSorted rows) hkeys_nodup hkeys_mem
    have hklen : (dateKeysSorted rows).length = (rows.map RangeRow.date).dedup.length :=
      (List.perm_insertionSort _ _).length_eq
    have hkne : dateKeysSorted rows ≠ [] := by
      rcases List.exists_mem_of_ne_nil rows hne with ⟨r, hr⟩
      exact List.ne_nil_of_mem (hkeys_mem r hr)
    unfold weekly_baseline
    rw [if_neg hemp]
    simp only [hmapeq]
    rw [if_neg (by simpa [List.isEmpty_eq_false, List.map_eq_nil_iff] using hkne)]
    rw [hsum, List.length_map, hklen]

/-- C6 counterexample: two filings on a single day give baseline `2.0`, not
the row count divided by the days of the seven-day window (`2/7`, nor `2/8`
counting both endpoints). -/
theorem c6_counterexample :
    weekly_baseline [wbRow 0, wbRow 0] = 2 ∧
    ¬ weekly_baseline [wbRow 0, wbRow 0] =
        (([wbRow 0, wbRow 0] : List RangeRow).length : ℚ) / 7 ∧
    ¬ weekly_baseline [wbRow 0, wbRow 0] =
        (([wbRow 0, wbRow 0] : List RangeRow).length : ℚ) / 8 := by
  have h2 : weekly_baseline [wbRow 0, wbRow 0] = 2 := by
    simp +decide [weekly_baseline, dateKeysSorted, List.insertionSort, List.orderedInsert, wbRow]
  refine ⟨h2, ?_, ?_⟩
  · rw [h2]
    norm_num
  · rw [h2]
    norm_num

/-- Witness for C6 at a three-row table over two distinct dates. -/
theorem c6_weekly_baseline_distinct_dates_witness :
    weekly_baseline [wbRow 0, wbRow 0, wbRow 1] =
      if ([wbRow 0, wbRow 0, wbRow 1] : List RangeRow).isEmpty then 0
      else (([wbRow 0, wbRow 0, wbRow 1] : List RangeRow).length : ℚ) /
        (((([wbRow 0, wbRow 0, wbRow 1] : List RangeRow).map
          RangeRow.date).dedup.length : ℕ) : ℚ) :=
  c6_weekly_baseline_distinct_dates [wbRow 0, wbRow 0, wbRow 1] (by decide)

/-! ### Error-freedom of the filing loop under parseable inputs -/

theorem find_form4_xml_url_isOk (dirIndex : String → Option (List String)) (cik fn : String)
    (h1 : isOkE (_extract_accession_and_dirpath fn) = true)
    (h2 : (pyInt? cik).isSome = true) :
    isOkE (find_form4_xml_url dirIndex cik fn) = true := by
  unfold find_form4_xml_url
  cases hex : _extract_accession_and_dirpath fn with
  | error e => rw [hex] at h1; simp [isOkE] at h1
  | ok ad =>
    dsimp only
    have hjson : isOkE (_dir_index_json_url cik ad.1) = true := by
      unfold _dir_index_json_url
      cases hint : pyInt? cik with
      | none => rw [hint] at h2; simp at h2
      | some n => rfl
    cases hj : _dir_index_json_url cik ad.1 with
    | error e => rw [hj] at hjson; simp [isOkE] at hjson
    | ok idxUrl =>
      dsimp only
      cases dirIndex idxUrl with
      | none => rfl
      | some items => rfl

theorem build_go_ok (dirIndex : String → Option (List String)) (fetchXml : String → Option XML)
    (maxF : ℕ) :
    ∀ (filings : List RangeRow) (count : ℕ),
      (∀ r ∈ filings, (r.filename.elim False
          (fun fn => isOkE (_extract_accession_and_dirpath fn) = true)) ∧
        (pyInt? (zfill r.cik 10)).isSome = true) →
      isOkE (build_activity_summary_go dirIndex fetchXml filings maxF count) = true := by
  intro filings
  induction filings with
  | nil => intro count _; rfl
  | cons r rest ih =>
    intro count hall
    unfold build_activity_summary_go
    by_cases hc : maxF ≤ count
    · rw [if_pos hc]
      rfl
    · rw [if_neg hc]
      obtain ⟨hfn, hcik⟩ := hall r (List.mem_cons_self r rest)
      cases hfile : r.filename with
      | none =>
        rw [hfile] at hfn
        simp [Option.elim] at hfn
      | some fn =>
        rw [hfile] at hfn
        simp only [Option.elim] at hfn
        dsimp only
        have hfind := find_form4_xml_url_isOk dirIndex (zfill r.cik 10) fn hfn hcik
        cases hf : find_form4_xml_url dirIndex (zfill r.cik 10) fn with
        | error e => rw [hf] at hfind; simp [isOkE] at hfind
        | ok ourl =>
          cases ourl with
          | none =>
            dsimp only
            exact ih count (fun q hq => hall q (List.mem_cons_of_mem r hq))
          | some url =>
            dsimp only
            cases fetchXml url with
            | none => exact ih count (fun q hq => hall q (List.mem_cons_of_mem r hq))
            | some x =>
              dsimp only
              have hrec := ih (count + 1) (fun q hq => hall q (List.mem_cons_of_mem r hq))
              cases hr2 : build_activity_summary_go dirIndex fetchXml rest maxF (count + 1) with
              | error e => rw [hr2] at hrec; simp [isOkE] at hrec
              | ok more => rfl

/-- C1 (amended): network failures while locating or fetching a filing's
document, and parse failures of the document itself, are caught and the
filing skipped; but `build_activity_summary` is only guaranteed to return
normally when every row's `Filename` is a string containing a parseable
accession number and every row's (zero-filled) CIK is a decimal-integer
string — a row violating this raises a `ValueError` (or `TypeError`) that
propagates to the caller, as the counterexample shows. -/
theorem c1_build_ok_when_filenames_parse (dirIndex : String → Option (List String))
    (fetchXml : String → Option XML) (dtParse : Option String → Option String)
    (filings : List RangeRow) (max_filings : ℕ)
    (h : ∀ r ∈ filings, (r.filename.elim False
        (fun fn => isOkE (_extract_accession_and_dirpath fn) = true)) ∧
      (pyInt? (zfill r.cik 10)).isSome = true) :
    isOkE (build_activity_summary dirIndex fetchXml dtParse filings max_filings) = true := by
  unfold build_activity_summary
  have hgo := build_go_ok dirIndex fetchXml max_filings filings 0 h
  cases hg : build_activity_summary_go dirIndex fetchXml filings max_filings 0 with
  | error e => rw [hg] at hgo; simp [isOkE] at hgo
  | ok rows => rfl

/-- Witness for C1 at a one-row table whose filename parses and whose CIK is
numeric (the directory fetch fails, which is caught and skipped). -/
theorem c1_build_ok_when_filenames_parse_witness :
    isOkE (build_activity_summary noDirIndex noFetchXml idDtParse [goodFiling] 300) = true :=
  c1_build_ok_when_filenames_parse noDirIndex noFetchXml idDtParse [goodFiling] 300 (by
    intro r hr
    rw [List.mem_singleton.mp hr]
    exact ⟨rfl, rfl⟩)

/-! ### The max_filings bound -/

theorem build_go_sources (dirIndex : String → Option (List String))
    (fetchXml : String → Option XML) (maxF : ℕ) :
    ∀ (filings : List RangeRow) (count : ℕ) (rows : List Tx),
      build_activity_summary_go dirIndex fetchXml filings maxF count = .ok rows →
      ∃ docs : List XML, docs.length ≤ maxF - count ∧
        rows = docs.flatMap (fun d => (parse_form4_xml d).transactions) := by
  intro filings
  induction filings with
  | nil =>
    intro count rows hrows
    simp only [build_activity_summary_go] at hrows
    have hr : rows = [] := (Except.ok.inj hrows).symm
    subst hr
    exact ⟨[], by simp, rfl⟩
  | cons r rest ih =>
    intro count rows hrows
    unfold build_activity_summary_go at hrows
    by_cases hc : maxF ≤ count
    · rw [if_pos hc] at hrows
      have hr : rows = [] := (Except.ok.inj hrows).symm
      subst hr
      exact ⟨[], by simp, rfl⟩
    · rw [if_neg hc] at hrows
      cases hfile : r.filename with
      | none =>
        rw [hfile] at hrows
        simp at hrows
      | some fn =>
        rw [hfile] at hrows
        dsimp only at hrows
        cases hf : find_form4_xml_url dirIndex (zfill r.cik 10) fn with
        | error e =>
          rw [hf] at hrows
          simp at hrows
        | ok ourl =>
          rw [hf] at hrows
          cases ourl with
          | none =>
            dsimp only at hrows
            exact ih count rows hrows
          | some url =>
            dsimp only at hrows
            cases hx : fetchXml url with
            | none =>
              rw [hx] at hrows
              exact ih count rows hrows
            | some x =>
              rw [hx] at hrows
              dsimp only at hrows
              cases hr2 : build_activity_summary_go dirIndex fetchXml rest maxF (count + 1) with
              | error e =>
                rw [hr2] at hrows
                simp at hrows
              | ok more =>
                rw [hr2] at hrows
                dsimp only at hrows
                have hr : rows = (parse_form4_xml x).transactions ++ more :=
                  (Except.ok.inj hrows).symm
                subst hr
                obtain ⟨docs, hlen, hflat⟩ := ih (count + 1) more hr2
                refine ⟨x :: docs, ?_, ?_⟩
                · have hxl : (x :: docs).length = docs.length + 1 := rfl
                  omega
                · rw [hflat]
                  simp [List.flatMap_cons]

/-- C10: the transaction rows returned by `build_activity_summary`
originate from at most `max_filings` successfully parsed filing documents —
the returned table is the concatenation, in order, of the parsed
transactions of at most `max_filings` documents (after the final column
cleanup), and filings whose document cannot be located, fetched or parsed
are skipped without counting toward the limit. -/
theorem c10_max_filings_bound (dirIndex : String → Option (List String))
    (fetchXml : String → Option XML) (dtParse : Option String → Option String)
    (filings : List RangeRow) (max_filings : ℕ) (rows : List Tx)
    (h : build_activity_summary dirIndex fetchXml dtParse filings max_filings = .ok rows) :
    ∃ docs : List XML, docs.length ≤ max_filings ∧
      rows = (docs.flatMap (fun d => (parse_form4_xml d).transactions)).map
        (cleanupRow dtParse) := by
  unfold build_activity_summary at h
  cases hg : build_activity_summary_go dirIndex fetchXml filings max_filings 0 with
  | error e => rw [hg] at h; simp at h
  | ok raw =>
    rw [hg] at h
    dsimp only at h
    have hr : rows = raw.map (cleanupRow dtParse) := (Except.ok.inj h).symm
    subst hr
    obtain ⟨docs, hlen, hflat⟩ := build_go_sources dirIndex fetchXml max_filings filings 0 raw hg
    refine ⟨docs, by omega, ?_⟩
    rw [hflat]

/-- Witness for C10 at a one-row table whose directory fetch fails: the
loop skips the row without counting it and returns an empty table. -/
theorem c10_max_filings_bound_witness :
    ∃ docs : List XML, docs.length ≤ 2 ∧
      ([] : List Tx) = (docs.flatMap (fun d => (parse_form4_xml d).transactions)).map
        (cleanupRow idDtParse) :=
  c10_max_filings_bound noDirIndex noFetchXml idDtParse [goodFiling] 2 [] rfl

/-! ### The date-range union (C7) -/

theorem isForm4Row_eq_spec (r : IdxRow) :
    isForm4Row r = decide (r.formType = some sForm4 ∨ r.formType = some sForm4A) := by
  simp [isForm4Row]

theorem range_frames_eq (fetchIdx : ℤ → Option (List IdxRow)) :
    ∀ ds : List ℤ,
      ((ds.filterMap (fun d =>
        match fetchIdx d with
        | none => none
        | some df =>
          if df.isEmpty then none
          else some ((df.filter isForm4Row).map (rawRangeRow d)))).flatten).map normalizeCIK =
      ds.flatMap (spec_dayForm4 fetchIdx) := by
  intro ds
  induction ds with
  | nil => rfl
  | cons d ds ih =>
    cases hd : fetchIdx d with
    | none =>
      simp only [List.filterMap_cons, hd, List.flatMap_cons, spec_dayForm4]
      rw [ih]
      rfl
    | some df =>
      have hfilter : df.filter isForm4Row =
          df.filter (fun r => r.formType = some sForm4 ∨ r.formType = some sForm4A) :=
        List.filter_congr (fun r _ => isForm4Row_eq_spec r)
      by_cases hdf : df.isEmpty = true
      · have hnil : df = [] := List.isEmpty_iff.mp hdf
        subst hnil
        simp only [List.filterMap_cons, hd, List.flatMap_cons, spec_dayForm4]
        rw [if_pos hdf]
        dsimp only
        rw [ih]
        rfl
      · simp only [List.filterMap_cons, hd, List.flatMap_cons, spec_dayForm4]
        rw [if_neg hdf]
        dsimp only
        rw [List.flatten_cons, List.map_append, ih, List.map_map, ← hfilter]
        rfl

/-- C7: for every start and end day with start ≤ end, the collector returns
exactly the concatenation, in ascending date order, of each day's index rows
restricted to Form Type `4` or `4/A`, each row carrying a `date` column
equal to the day it was collected from (and the CIK column zero-padded by
the collector's normalisation); in particular every returned row has Form
Type `4` or `4/A`, and no filtered row of a successfully fetched day is
omitted. -/
theorem c7_range_union (fetchIdx : ℤ → Option (List IdxRow)) (startD endD : ℤ)
    (_h : startD ≤ endD) :
    list_form4_filings_for_range fetchIdx startD endD =
      (ascDates startD endD).flatMap (spec_dayForm4 fetchIdx) ∧
    ∀ row ∈ list_form4_filings_for_range fetchIdx startD endD,
      row.formType = some sForm4 ∨ row.formType = some sForm4A := by
  have hif : ∀ (fs : List (List RangeRow)),
      (if fs.isEmpty then ([] : List RangeRow) else fs.flatten.map normalizeCIK) =
        fs.flatten.map normalizeCIK := by
    intro fs
    cases fs with
    | nil => rfl
    | cons a fs => rfl
  have hmain : list_form4_filings_for_range fetchIdx startD endD =
      (ascDates startD endD).flatMap (spec_dayForm4 fetchIdx) := by
    simp only [list_form4_filings_for_range]
    rw [hif]
    exact range_frames_eq fetchIdx (ascDates startD endD)
  refine ⟨hmain, ?_⟩
  intro row hrow
  rw [hmain] at hrow
  rcases List.mem_flatMap.mp hrow with ⟨d, hd, hrd⟩
  unfold spec_dayForm4 at hrd
  cases hfd : fetchIdx d with
  | none =>
    rw [hfd] at hrd
    cases hrd
  | some df =>
    rw [hfd] at hrd
    dsimp only at hrd
    rcases List.mem_map.mp hrd with ⟨r, hrmem, hreq⟩
    have hprop : r.formType = some sForm4 ∨ r.formType = some sForm4A :=
      of_decide_eq_true (List.mem_filter.mp hrmem).2
    rw [← hreq]
    exact hprop

/-- Witness for C7 over the two-day range 0..1 with the sample index
oracle. -/
theorem c7_range_union_witness :
    list_form4_filings_for_range wFetchIdx 0 1 =
      (ascDates 0 1).flatMap (spec_dayForm4 wFetchIdx) ∧
    ∀ row ∈ list_form4_filings_for_range wFetchIdx 0 1,
      row.formType = some sForm4 ∨ row.formType = some sForm4A :=
  c7_range_union wFetchIdx 0 1 (by decide)
